import Mathlib

/-
Shallow embedding of the sqlcmock code generator: the `generator` Go package
(`Parse`, `fields`, `exprToString`, `needsPackageRe`, `setOutputPackage`,
`findOutputModule`, `findModuleRoot`, `Render`) and the `main` package
driver (`run`).

Modelling conventions:
  - Go syntax trees are the mutual inductives `Expr` / `FieldListOpt` /
    `FieldGroups` below.  An `ast.Field` is one group of names sharing a
    type expression; a nil `*ast.FieldList` pointer is `FieldListOpt.none`.
  - The run-time panic caused by `fields` dereferencing a nil field-list
    pointer (`list.List` with `list == nil`) is modelled by an
    `Option.none` result that propagates through the traversal.
  - `log.Fatal` calls inside `Parse`, `setOutputPackage` and `Render`
    (which terminate the process from within the stage) are modelled by
    the dedicated `fatal` constructors of the result types, kept distinct
    from the `err` constructors that model errors returned to the caller.
  - External collaborators (the Go parser, filesystem, module-file parser,
    template engine, source formatter) are black boxes supplied as fields
    of `Env` / `RenderEnv` / `RunEnv`, placed exactly at the call sites
    where the source invokes them.  The already-parsed source file is the
    `Except String File` argument of `Parse` (`Except.error` = the parser
    failed).
  - File paths are lists of path segments; `dirToString` restores the
    slash-separated spelling.
-/

namespace sqlcmock

mutual

/-- A Go type expression, restricted to the node shapes the generator can
meet.  `selector` models `*ast.SelectorExpr` whose `X` is an identifier
(the only form `exprToString` handles without panicking). -/
inductive Expr where
  | ident (name : String)
  | selector (x : String) (sel : String)
  | array (elt : Expr)
  | star (x : Expr)
  | funcType (params : FieldGroups) (results : FieldListOpt)
  | chanType (value : Expr)
  | mapType (key : Expr) (value : Expr)
  | interfaceType (methods : FieldGroups)
  | structType (flds : FieldGroups)

inductive FieldListOpt where
  | none
  | some (gs : FieldGroups)

inductive FieldGroups where
  | nil
  | cons (names : List String) (tp : Expr) (rest : FieldGroups)

end

/-- One parameter or result in the IR: `{Name string; Type string}`. -/
structure Field where
  Name : String
  Type' : String
deriving DecidableEq

/-- One extracted method: `{Name string; Input, Output []Field}`. -/
structure Method where
  Name : String
  Input : List Field
  Output : List Field
deriving DecidableEq

/-- One collected import: `{Path string; Name string}`. -/
structure Import where
  Path : String
  Name : String
deriving DecidableEq

/-- The IR handed to the template: struct `Output` of the generator package. -/
structure Output where
  GenPackage : String
  ModelPath : String
  Package : String
  Struct : String
  Imports : List Import
  Methods : List Method
deriving DecidableEq

/-- The configuration struct `Opts`. -/
structure Opts where
  InputFile : String
  TemplateFile : String
  OutputFile : String
  OutputPackage : String
  Format : Bool

/-- The Go dynamic type name `%T` prints for each unhandled node shape. -/
def exprKind : Expr → String
  | .ident _ => "*ast.Ident"
  | .selector _ _ => "*ast.SelectorExpr"
  | .array _ => "*ast.ArrayType"
  | .star _ => "*ast.StarExpr"
  | .funcType _ _ => "*ast.FuncType"
  | .chanType _ => "*ast.ChanType"
  | .mapType _ _ => "*ast.MapType"
  | .interfaceType _ => "*ast.InterfaceType"
  | .structType _ => "*ast.StructType"

/-- `exprToString`: renders one type expression.  Identifiers print their
name, `pkg.Name` selectors print verbatim, slices/arrays prepend `[]`,
pointers prepend `*`; every other shape falls to the default case, which
logs a diagnostic and returns the sentinel `<error_unhandled_%T>`. -/
def exprToString : Expr → String
  | .ident n => n
  | .selector x sel => x ++ "." ++ sel
  | .array elt => "[]" ++ exprToString elt
  | .star x => "*" ++ exprToString x
  | e => "<error_unhandled_" ++ exprKind e ++ ">"

/-- `needsPackageRe`: the submatch extraction of the regular expression
`^([^A-Za-z0-9]*)([A-Z][^.]*)$`.  Group 1 is the (necessarily maximal)
leading run of non-alphanumeric characters; the remainder must be nonempty,
start with an uppercase ASCII letter and contain no dot.  Returns the two
capture groups on success. -/
def needsPackageRe (s : String) : Option (String × String) :=
  let l := s.toList
  let pre := l.takeWhile (fun c => !c.isAlphanum)
  let rest := l.dropWhile (fun c => !c.isAlphanum)
  match rest with
  | [] => Option.none
  | c :: _ =>
    if c.isUpper && rest.all (fun d => d != '.') then
      Option.some (String.mk pre, String.mk rest)
    else
      Option.none

/-- The per-slot type text computed inside `fields`: render the type with
`exprToString`, then, if `needsPackageRe` matches, qualify it as
`matches[1] + pkg + "." + matches[2]`. -/
def fieldType (t : Expr) (pkg : String) : String :=
  let tp := exprToString t
  match needsPackageRe tp with
  | Option.some (pre, idn) => pre ++ pkg ++ "." ++ idn
  | Option.none => tp

/-- The loop body of `fields` over `list.List`: one `Field` per `ast.Field`
group, whose name is the FIRST name of the group (`field.Names[0]`) or
empty when the slot is unnamed. -/
def fieldsLoop : FieldGroups → String → List Field
  | .nil, _ => []
  | .cons ns t rest, pkg => ⟨ns.headD "", fieldType t pkg⟩ :: fieldsLoop rest pkg

/-- `fields(list *ast.FieldList, pkg string)`.  A nil list pointer makes
`list.List` panic with a nil-pointer dereference, modelled as `none`. -/
def fields : FieldListOpt → String → Option (List Field)
  | .none, _ => Option.none
  | .some gs, pkg => Option.some (fieldsLoop gs pkg)

/-- Traversal state of the `ast.Inspect` closure in `Parse`: the
most-recently seen identifier (`funcName`) and the accumulated methods. -/
abbrev WalkState := String × List Method

mutual

/-- The `ast.Inspect(querier, ...)` closure, on one expression node:
every `*ast.Ident` updates `funcName`; every `*ast.FuncType` appends a
`Method` built from the current `funcName` and `fields` of its parameter
and result lists (panicking, `Option.none`, when the result list pointer
is nil), then descends into its children.  All other nodes just recurse
in `ast.Walk` order. -/
def walkExpr (pkg : String) : Expr → WalkState → Option WalkState
  | .ident n, (_, ms) => Option.some (n, ms)
  | .selector _ sel, (_, ms) => Option.some (sel, ms)
  | .array elt, s => walkExpr pkg elt s
  | .star x, s => walkExpr pkg x s
  | .chanType v, s => walkExpr pkg v s
  | .mapType k v, s =>
    match walkExpr pkg k s with
    | Option.none => Option.none
    | Option.some s1 => walkExpr pkg v s1
  | .funcType ps rs, (fn, ms) =>
    match fields rs pkg with
    | Option.none => Option.none
    | Option.some outs =>
      match walkGroups pkg ps (fn, ms ++ [⟨fn, fieldsLoop ps pkg, outs⟩]) with
      | Option.none => Option.none
      | Option.some s1 => walkFieldListOpt pkg rs s1
  | .interfaceType gs, s => walkGroups pkg gs s
  | .structType gs, s => walkGroups pkg gs s

/-- Walk of a possibly-nil field list's children (`ast.Walk` skips nil). -/
def walkFieldListOpt (pkg : String) : FieldListOpt → WalkState → Option WalkState
  | .none, s => Option.some s
  | .some gs, s => walkGroups pkg gs s

/-- Walk of the groups of a field list: each group's name identifiers are
visited first (leaving `funcName` = last name of the group, if any), then
its type expression, then the remaining groups. -/
def walkGroups (pkg : String) : FieldGroups → WalkState → Option WalkState
  | .nil, s => Option.some s
  | .cons ns t rest, (fn, ms) =>
    match walkExpr pkg t (ns.getLastD fn, ms) with
    | Option.none => Option.none
    | Option.some s1 => walkGroups pkg rest s1

end

/-- A `*ast.TypeSpec`: a named type declaration. -/
structure TypeSpec where
  name : String
  tp : Expr

/-- `ast.Inspect(querier, ...)` from the top: the spec's `Name` identifier
is visited first (so `funcName` starts as the spec name), then its type. -/
def walkTypeSpec (ts : TypeSpec) (pkg : String) : Option (List Method) :=
  match walkExpr pkg ts.tp (ts.name, []) with
  | Option.none => Option.none
  | Option.some (_, ms) => Option.some ms

/-- One import declaration as it appears in the file: the still-quoted
path literal and the explicit alias (empty when absent). -/
structure RawImport where
  name : String
  pathLit : String

/-- A parsed source file: package name, every `*ast.TypeSpec` node in
traversal order, and the import declarations. -/
structure File where
  name : String
  typeSpecs : List TypeSpec
  imports : List RawImport

/-- The first `ast.Inspect` in `Parse`: each `*ast.TypeSpec` named
`Querier` overwrites the `querier` variable (so the last match wins). -/
def findQuerierSpec (file : File) : Option TypeSpec :=
  file.typeSpecs.foldl
    (fun acc ts => if ts.name == "Querier" then Option.some ts else acc)
    Option.none

/-- Whether the file declares a type named `Querier` anywhere. -/
def hasQuerier (file : File) : Bool :=
  file.typeSpecs.any (fun ts => ts.name == "Querier")

/-- The error values the generator package can return to its caller. -/
inductive GenError where
  | noQuerier
  | unquoteErr (msg : String)
  | absErr (msg : String)
  | modRead (msg : String)
  | modParse (msg : String)
deriving DecidableEq

/-- `ErrNoQuerier = errors.New("no Querier found")`: the distinguished
missing-target error value. -/
def ErrNoQuerier : GenError := GenError.noQuerier

/-- The message carried by each error value (`ErrNoQuerier` prints
`"no Querier found"`; the rest surface the underlying cause verbatim). -/
def genErrorMsg : GenError → String
  | .noQuerier => "no Querier found"
  | .unquoteErr m => m
  | .absErr m => m
  | .modRead m => m
  | .modParse m => m

/-- The black-box collaborators of `Parse`: `strconv.Unquote`, the
`go.mod` probe used by `findModuleRoot` (`os.Stat` succeeding on a regular
file), `os.ReadFile`, `modfile.Parse` (returning the declared module
path), and the two `filepath.Abs` calls, already resolved to
segment-lists of the absolute input and output file paths. -/
structure Env where
  unquote : String → Except String String
  hasGoMod : List String → Bool
  readFile : String → Except String String
  parseModFile : String → Except String String
  absInputFile : Except String (List String)
  absOutputFile : Except String (List String)

/-- The import-collection loop in `Parse`: unquote each path literal in
order, failing on the first malformed one. -/
def collectImports (env : Env) : List RawImport → Except GenError (List Import)
  | [] => Except.ok []
  | imp :: rest =>
    match env.unquote imp.pathLit with
    | Except.error e => Except.error (GenError.unquoteErr e)
    | Except.ok p =>
      match collectImports env rest with
      | Except.error e => Except.error e
      | Except.ok l => Except.ok (⟨p, imp.name⟩ :: l)

/-- `setOutputPackage`: an explicit `--package` wins; otherwise
`filepath.Base(filepath.Dir(outPath))`, the base name of the output
file's directory — which is `"/"` for a file directly under the
filesystem root, since `Dir` yields `"/"` there and `Base "/" = "/"`.
A failing `filepath.Abs` is a `log.Fatal` (the `Except.error` branch). -/
def setOutputPackage (env : Env) (opts : Opts) : Except String String :=
  if opts.OutputPackage != "" then Except.ok opts.OutputPackage
  else
    match env.absOutputFile with
    | Except.error e => Except.error e
    | Except.ok p =>
      Except.ok
        (match p.dropLast with
         | [] => "/"
         | d :: ds => (d :: ds).getLastD "/")

/-- Slash-separated spelling of a segment path (`[] ↦ ""`,
`["a","b"] ↦ "/a/b"`), matching `filepath` on an absolute path. -/
def dirToString (segs : List String) : String :=
  segs.foldl (fun acc s => acc ++ "/" ++ s) ""

/-- `filepath.Join(root, "go.mod")`, where `Option.none` is the empty
root string returned by a failed `findModuleRoot`. -/
def goModPath : Option (List String) → String
  | Option.none => "go.mod"
  | Option.some segs => dirToString segs ++ "/go.mod"

/-- The `for` loop of `findModuleRoot`, with the iteration count made
explicit: check the current directory for `go.mod`, stop when the
parent equals the directory (the filesystem root), else ascend. -/
def findModuleRootLoop (fs : List String → Bool) : Nat → List String → Option (List String)
  | 0, dir => if fs dir then Option.some dir else Option.none
  | fuel + 1, dir =>
    if fs dir then Option.some dir
    else
      match dir with
      | [] => Option.none
      | _ :: _ => findModuleRootLoop fs fuel dir.dropLast

/-- `findModuleRoot`: ascend from `dir` until a directory containing a
`go.mod` file is found; `Option.none` models the empty-string result when
the filesystem root is reached without finding one.  `dir.length` bounds
the number of ascents exactly. -/
def findModuleRoot (fs : List String → Bool) (dir : List String) : Option (List String) :=
  findModuleRootLoop fs dir.length dir

/-- The directory string `findModuleRoot` hands back to `findOutputModule`:
a root at segment list `s :: ss` is the slash-separated directory, the
filesystem root (empty segment list) is spelled `"/"`, and a missing root
is the empty string. -/
def rootToString : Option (List String) → String
  | Option.none => ""
  | Option.some [] => "/"
  | Option.some (s :: ss) => dirToString (s :: ss)

/-- `strings.TrimPrefix(s, p)`: if `p` is a prefix of `s`, the remainder
of `s` after it, else `s` unchanged.  Go counts bytes; this counts
characters, which agrees on the ASCII paths handled here. -/
def trimPrefixStr (s p : String) : String :=
  if p.data.isPrefixOf s.data then String.mk (s.data.drop p.data.length) else s

/-- `findOutputModule`: resolve the input file's directory, find the
module root, read and parse its `go.mod`, and derive
`ModelPath = modulePath + strings.TrimPrefix(dir, root)`.  All failures
are returned errors. -/
def findOutputModule (env : Env) : Except GenError String :=
  match env.absInputFile with
  | Except.error e => Except.error (GenError.absErr e)
  | Except.ok f =>
    match env.readFile (goModPath (findModuleRoot env.hasGoMod f.dropLast)) with
    | Except.error e => Except.error (GenError.modRead e)
    | Except.ok content =>
      match env.parseModFile content with
      | Except.error e => Except.error (GenError.modParse e)
      | Except.ok mp =>
        Except.ok
          (mp ++ trimPrefixStr (dirToString f.dropLast)
            (rootToString (findModuleRoot env.hasGoMod f.dropLast)))

/-- What a call of `Parse` can do: return the IR, return an error value,
terminate the whole process via `log.Fatal`, or panic. -/
inductive ParseResult where
  | ok (o : Output)
  | err (e : GenError)
  | fatal (msg : String)
  | panicked
deriving DecidableEq

/-- `Parse`: parse the input file (a parser error is `log.Fatal`, not a
returned error), locate the last `Querier` type spec (missing ⇒
`ErrNoQuerier`), run the method-collecting traversal, collect imports,
assemble the `Output` with `Struct = "Mocker"`, default the generated
package name, and resolve the module path. -/
def Parse (env : Env) (opts : Opts) (src : Except String File) : ParseResult :=
  match src with
  | Except.error e => ParseResult.fatal e
  | Except.ok file =>
    match findQuerierSpec file with
    | Option.none => ParseResult.err ErrNoQuerier
    | Option.some q =>
      match walkTypeSpec q file.name with
      | Option.none => ParseResult.panicked
      | Option.some methods =>
        match collectImports env file.imports with
        | Except.error e => ParseResult.err e
        | Except.ok imports =>
          match setOutputPackage env opts with
          | Except.error m => ParseResult.fatal m
          | Except.ok gp =>
            match findOutputModule env with
            | Except.error e => ParseResult.err e
            | Except.ok mp =>
              ParseResult.ok
                { GenPackage := gp, ModelPath := mp, Package := file.name,
                  Struct := "Mocker", Imports := imports, Methods := methods }

/-- The black-box collaborators of `Render`: the embedded default
template text, `os.ReadFile`, `template.Parse` (syntax check),
`tpl.Execute` against the IR, and `format.Source`. -/
structure RenderEnv where
  defaultTpl : String
  readFile : String → Except String String
  parseTemplate : String → Except String Unit
  execTemplate : String → Output → Except String String
  formatSource : String → Except String String

/-- What a call of `Render` can do. -/
inductive RenderResult where
  | ok (bytes : String)
  | err (msg : String)
  | fatal (msg : String)
deriving DecidableEq

/-- `Render`: choose the template text (an unreadable override file is a
returned error), parse it (`log.Fatal` on syntax error), execute it
(`log.Fatal` on execution error), and optionally format the result (a
formatter failure is a returned error, distinguished by its message). -/
def Render (env : RenderEnv) (opts : Opts) (output : Output) : RenderResult :=
  let tc : Except String String :=
    if opts.TemplateFile != "" then
      match env.readFile opts.TemplateFile with
      | Except.error e => Except.error ("failed to open template file: " ++ e)
      | Except.ok c => Except.ok c
    else Except.ok env.defaultTpl
  match tc with
  | Except.error e => RenderResult.err e
  | Except.ok templateContent =>
    match env.parseTemplate templateContent with
    | Except.error e => RenderResult.fatal e
    | Except.ok _ =>
      match env.execTemplate templateContent output with
      | Except.error e => RenderResult.fatal e
      | Except.ok rendered =>
        if !opts.Format then RenderResult.ok rendered
        else
          match env.formatSource rendered with
          | Except.error e => RenderResult.err ("failed to format source: " ++ e)
          | Except.ok r => RenderResult.ok r

/-- The black-box collaborator of `run`: `os.WriteFile`. -/
structure RunEnv where
  writeFile : String → String → Except String Unit

/-- The error values `run` returns to `main` (which prints them and exits
non-zero via `log.Fatal`). -/
inductive RunError where
  | usage
  | gen (e : GenError)
  | render (msg : String)
  | write (msg : String)
deriving DecidableEq

/-- How a whole run ends. -/
inductive RunResult where
  | okRun
  | errExit (e : RunError)
  | fatalStop (msg : String)
  | panicked
deriving DecidableEq

/-- `run` from `main.go`: missing positional argument is a usage error;
`Parse` errors and `Render` errors are returned (and `main` then prints
them and exits non-zero); in-stage `log.Fatal`s and panics end the
process directly.  The second component records the successful
`os.WriteFile` call, if any. -/
def run (env : Env) (renv : RenderEnv) (wenv : RunEnv) (opts : Opts)
    (args : List String) (src : Except String File) :
    RunResult × Option (String × String) :=
  match args with
  | [] => (RunResult.errExit RunError.usage, Option.none)
  | inputFile :: _ =>
    let opts := { opts with InputFile := inputFile }
    match Parse env opts src with
    | ParseResult.fatal m => (RunResult.fatalStop m, Option.none)
    | ParseResult.panicked => (RunResult.panicked, Option.none)
    | ParseResult.err e => (RunResult.errExit (RunError.gen e), Option.none)
    | ParseResult.ok output =>
      match Render renv opts output with
      | RenderResult.fatal m => (RunResult.fatalStop m, Option.none)
      | RenderResult.err m => (RunResult.errExit (RunError.render m), Option.none)
      | RenderResult.ok generated =>
        match wenv.writeFile opts.OutputFile generated with
        | Except.error e => (RunResult.errExit (RunError.write e), Option.none)
        | Except.ok _ =>
          (RunResult.okRun, Option.some (opts.OutputFile, generated))

/-! Helper lemmas about the `Querier` search. -/

theorem foldlFind_some (l : List TypeSpec) (x : TypeSpec) :
    ∃ y, l.foldl
        (fun acc ts => if ts.name == "Querier" then Option.some ts else acc)
        (Option.some x) = Option.some y := by
  induction l generalizing x with
  | nil => exact ⟨x, rfl⟩
  | cons ts rest ih =>
    simp only [List.foldl_cons]
    cases h : ts.name == "Querier" with
    | false => simpa [h] using ih x
    | true => simpa [h] using ih ts

theorem foldlFind_none_iff (l : List TypeSpec) :
    (l.foldl
        (fun acc ts => if ts.name == "Querier" then Option.some ts else acc)
        Option.none = Option.none)
      ↔ (l.any (fun ts => ts.name == "Querier") = false) := by
  induction l with
  | nil => simp
  | cons ts rest ih =>
    simp only [List.foldl_cons, List.any_cons]
    cases h : ts.name == "Querier" with
    | false => simpa [h] using ih
    | true =>
      obtain ⟨y, hy⟩ := foldlFind_some rest ts
      rw [show (if (true = true) then Option.some ts else Option.none)
            = Option.some ts from rfl, hy]
      simp

theorem findQuerierSpec_none_iff (file : File) :
    findQuerierSpec file = Option.none ↔ hasQuerier file = false :=
  foldlFind_none_iff file.typeSpecs

theorem collectImports_error (env : Env) (l : List RawImport) (e : GenError)
    (h : collectImports env l = Except.error e) : ∃ m, e = GenError.unquoteErr m := by
  induction l with
  | nil => simp [collectImports] at h
  | cons imp rest ih =>
    unfold collectImports at h
    cases hu : env.unquote imp.pathLit with
    | error m => rw [hu] at h; exact ⟨m, (Except.error.inj h).symm⟩
    | ok p =>
      rw [hu] at h
      cases hc : collectImports env rest with
      | error e' =>
        rw [hc] at h
        have he : e' = e := Except.error.inj h
        subst he
        exact ih hc
      | ok l' => rw [hc] at h; cases h

theorem findOutputModule_error (env : Env) (e : GenError)
    (h : findOutputModule env = Except.error e) : e ≠ ErrNoQuerier := by
  unfold findOutputModule at h
  split at h
  · cases h; simp [ErrNoQuerier]
  · split at h
    · cases h; simp [ErrNoQuerier]
    · split at h
      · cases h; simp [ErrNoQuerier]
      · cases h

/-- A concrete file whose only type declaration is `type Querier struct{}`:
a `Querier` whose underlying type is not an interface. -/
def structQuerierFile : File := ⟨"db", [⟨"Querier", Expr.structType .nil⟩], []⟩

/-- C10: `Parse` returns the `ErrNoQuerier` error exactly when the parsed
file contains no type declaration named `Querier`; in particular a file
declaring `type Querier struct{}` counts as containing the target (second
conjunct), so by the equivalence it never produces this error. -/
theorem c10_noQuerier_iff (env : Env) (opts : Opts) (file : File) :
    ((Parse env opts (Except.ok file) = ParseResult.err ErrNoQuerier)
        ↔ hasQuerier file = false)
    ∧ hasQuerier structQuerierFile = true := by
  refine ⟨?_, rfl⟩
  cases hfq : findQuerierSpec file with
  | none =>
    have hq := (findQuerierSpec_none_iff file).mp hfq
    simp [Parse, hfq, hq]
  | some q =>
    have hq : hasQuerier file = true := by
      cases h' : hasQuerier file with
      | false =>
        rw [(findQuerierSpec_none_iff file).mpr h'] at hfq
        cases hfq
      | true => rfl
    rw [hq]
    simp only [Bool.true_eq_false, iff_false]
    cases hw : walkTypeSpec q file.name with
    | none => simp [Parse, hfq, hw]
    | some methods =>
      cases hc : collectImports env file.imports with
      | error e =>
        obtain ⟨m, rfl⟩ := collectImports_error env file.imports e hc
        simp [Parse, hfq, hw, hc, ErrNoQuerier]
      | ok imports =>
        cases hs : setOutputPackage env opts with
        | error m => simp [Parse, hfq, hw, hc, hs]
        | ok gp =>
          cases hm : findOutputModule env with
          | error e =>
            have hne := findOutputModule_error env e hm
            simp [Parse, hfq, hw, hc, hs, hm, hne]
          | ok mp => simp [Parse, hfq, hw, hc, hs, hm]

/-- C5: when the file has no `Querier` type declaration, the whole run
fails with the distinguished `ErrNoQuerier` value returned to the caller,
and no output file is written. -/
theorem c5_noQuerier_no_write (env : Env) (renv : RenderEnv) (wenv : RunEnv)
    (opts : Opts) (a : String) (rest : List String) (file : File)
    (h : hasQuerier file = false) :
    run env renv wenv opts (a :: rest) (Except.ok file)
      = (RunResult.errExit (RunError.gen ErrNoQuerier), Option.none) := by
  have hfq : findQuerierSpec file = Option.none := (findQuerierSpec_none_iff file).mpr h
  simp [run, Parse, hfq]

/-- A file declaring only `type NotQuerier struct{}`. -/
def fileW5 : File := ⟨"db", [⟨"NotQuerier", Expr.structType .nil⟩], []⟩

/-- Environment stubs for concrete witnesses. -/
def envW5 : Env :=
  ⟨fun s => Except.ok s, fun _ => false, fun _ => Except.error "no fs",
   fun _ => Except.error "no mod", Except.ok ["in", "q.go"], Except.ok ["out", "mock.go"]⟩

def renvW5 : RenderEnv :=
  ⟨"tpl", fun _ => Except.error "no fs", fun _ => Except.ok (),
   fun _ _ => Except.ok "code", fun s => Except.ok s⟩

def wenvW5 : RunEnv := ⟨fun _ _ => Except.ok ()⟩

def optsW5 : Opts := ⟨"q.go", "", "out/mock.go", "", true⟩

/-- Witness for C5: a concrete run on a file without `Querier`. -/
theorem c5_witness :
    run envW5 renvW5 wenvW5 optsW5 ["q.go"] (Except.ok fileW5)
      = (RunResult.errExit (RunError.gen ErrNoQuerier), Option.none) :=
  c5_noQuerier_no_write envW5 renvW5 wenvW5 optsW5 "q.go" [] fileW5 (by rfl)

/-- C1 (evaluation of the code at the failing input): for the parameter
list `(a, b int)` — a single `ast.Field` group with two names sharing one
type expression — `fields` produces ONE Field record, named after the
first name of the group only, instead of one record per name. -/
theorem c1_group_collapses :
    fieldsLoop (.cons ["a", "b"] (.ident "int") .nil) "db" = [⟨"a", "int"⟩]
    ∧ (fieldsLoop (.cons ["a", "b"] (.ident "int") .nil) "db").length = 1 :=
  ⟨rfl, rfl⟩

/-- A file whose `Querier` interface has one method `Flush()` with no
result list (`fn.Results == nil`). -/
def fileW2 : File :=
  ⟨"db", [⟨"Querier", .interfaceType (.cons ["Flush"] (.funcType .nil .none) .nil)⟩], []⟩

def envW2 : Env :=
  ⟨fun s => Except.ok s, fun _ => false, fun _ => Except.error "no fs",
   fun _ => Except.error "no mod", Except.ok ["in", "q.go"], Except.ok ["out", "mock.go"]⟩

def optsW2 : Opts := ⟨"q.go", "", "out/mock.go", "", true⟩

/-- C2 (evaluation of the code at the failing input): a method with zero
results makes the traversal dereference the nil `Results` field list and
panic (first two conjuncts), so extraction is NOT total there; a method
with zero parameters but a result list does yield `Input = []` (third
conjunct), the only half of the claim the code satisfies. -/
theorem c2_nil_results_panics :
    walkTypeSpec ⟨"Querier", .interfaceType (.cons ["Flush"] (.funcType .nil .none) .nil)⟩ "db"
      = Option.none
    ∧ Parse envW2 optsW2 (Except.ok fileW2) = ParseResult.panicked
    ∧ walkTypeSpec
        ⟨"Querier", .interfaceType
          (.cons ["Ping"] (.funcType .nil (.some (.cons [] (.ident "error") .nil))) .nil)⟩ "db"
      = Option.some [⟨"Ping", [], [⟨"", "error"⟩]⟩] :=
  ⟨rfl, rfl, rfl⟩

/-- C4: package qualification of rendered types.  A bare uppercase
identifier `Foo` with declaring package `bar` renders as `bar.Foo`, `*Foo`
as `*bar.Foo`, `[]Foo` as `[]bar.Foo`; an already-qualified `pkg.Thing`
and the lowercase identifier `error` are left unchanged — both at the
level of one type slot (`fieldType`) and of a whole result list. -/
theorem c4_package_qualification :
    fieldType (.ident "Foo") "bar" = "bar.Foo"
    ∧ fieldType (.star (.ident "Foo")) "bar" = "*bar.Foo"
    ∧ fieldType (.array (.ident "Foo")) "bar" = "[]bar.Foo"
    ∧ fieldType (.selector "pkg" "Thing") "bar" = "pkg.Thing"
    ∧ fieldType (.ident "error") "bar" = "error"
    ∧ fieldsLoop (.cons [] (.star (.ident "Foo")) (.cons [] (.ident "error") .nil)) "bar"
        = [⟨"", "*bar.Foo"⟩, ⟨"", "error"⟩] :=
  ⟨rfl, rfl, rfl, rfl, rfl, rfl⟩

/-- A `Querier` whose first method has a channel-typed parameter (an
unsupported shape) and whose second method is ordinary. -/
def groupsW6 : FieldGroups :=
  .cons ["Bad"]
    (.funcType (.cons ["c"] (.chanType (.ident "int")) .nil)
      (.some (.cons [] (.ident "error") .nil)))
    (.cons ["Good"]
      (.funcType (.cons ["x"] (.ident "int") .nil)
        (.some (.cons [] (.ident "error") .nil)))
      .nil)

def fileW6 : File := ⟨"db", [⟨"Querier", .interfaceType groupsW6⟩], []⟩

def envW6 : Env :=
  ⟨fun s => Except.ok s, fun d => d == ["app"],
   fun p => if p == "/app/go.mod" then Except.ok "module example.com/app"
            else Except.error "missing",
   fun c => if c == "module example.com/app" then Except.ok "example.com/app"
            else Except.error "bad go.mod",
   Except.ok ["app", "db", "q.go"], Except.ok ["out", "mock.go"]⟩

def optsW6 : Opts := ⟨"q.go", "", "out/mock.go", "", true⟩

/-- C6: every unsupported type shape renders as the sentinel
`<error_unhandled_<KIND>>` with the shape's Go dynamic type name as KIND
(first three conjuncts, for channel, map and function types), and an
unsupported shape inside one method does not abort extraction: the
sibling method is still extracted with its correct fields, and the whole
`Parse` pipeline completes (last two conjuncts). -/
theorem c6_sentinel_degradation :
    (∀ e, exprToString (.chanType e) = "<error_unhandled_*ast.ChanType>")
    ∧ (∀ k v, exprToString (.mapType k v) = "<error_unhandled_*ast.MapType>")
    ∧ (∀ ps rs, exprToString (.funcType ps rs) = "<error_unhandled_*ast.FuncType>")
    ∧ walkTypeSpec ⟨"Querier", .interfaceType groupsW6⟩ "db"
        = Option.some
          [⟨"Bad", [⟨"c", "<error_unhandled_*ast.ChanType>"⟩], [⟨"", "error"⟩]⟩,
           ⟨"Good", [⟨"x", "int"⟩], [⟨"", "error"⟩]⟩]
    ∧ Parse envW6 optsW6 (Except.ok fileW6)
        = ParseResult.ok
          { GenPackage := "out", ModelPath := "example.com/app/db", Package := "db",
            Struct := "Mocker", Imports := [],
            Methods :=
              [⟨"Bad", [⟨"c", "<error_unhandled_*ast.ChanType>"⟩], [⟨"", "error"⟩]⟩,
               ⟨"Good", [⟨"x", "int"⟩], [⟨"", "error"⟩]⟩] } :=
  ⟨fun _ => rfl, fun _ _ => rfl, fun _ _ => rfl, rfl, rfl⟩

def envW3 : Env :=
  ⟨fun s => Except.ok s, fun _ => false, fun _ => Except.error "no fs",
   fun _ => Except.error "no mod", Except.ok ["in", "q.go"], Except.ok ["out", "mock.go"]⟩

def optsW3 : Opts := ⟨"q.go", "", "out/mock.go", "", true⟩

/-- C3 counterexample: an unparsable source file is NOT returned as an
error value to the top-level caller — `Parse` terminates the process from
inside the stage (`log.Fatal`), contradicting the claim that every
fatal-input error bubbles unchanged and that no stage terminates the
process itself. -/
theorem c3_counterexample :
    Parse envW3 optsW3 (Except.error "q.go:1:1: expected declaration")
      = ParseResult.fatal "q.go:1:1: expected declaration" := rfl

/-- C3 (amended): errors from reading an override template file and from
the post-render formatter are returned as error values, and any error
value `Parse` or `Render` returns is propagated unchanged by `run` to the
top-level caller (which prints it and exits non-zero) with no file
written; but an unparsable source file, an invalid template and a failing
template execution terminate the process inside the stage via `log.Fatal`
instead of returning. -/
theorem c3_amended (env : Env) (renv : RenderEnv) (wenv : RunEnv) (opts : Opts)
    (o : Output) (src : Except String File) (a : String) (args : List String) :
    (∀ e, Parse env opts (Except.error e) = ParseResult.fatal e)
    ∧ (∀ e, opts.TemplateFile ≠ "" → renv.readFile opts.TemplateFile = Except.error e →
        Render renv opts o = RenderResult.err ("failed to open template file: " ++ e))
    ∧ (∀ e, opts.TemplateFile = "" → renv.parseTemplate renv.defaultTpl = Except.error e →
        Render renv opts o = RenderResult.fatal e)
    ∧ (∀ e, opts.TemplateFile = "" → renv.parseTemplate renv.defaultTpl = Except.ok () →
        renv.execTemplate renv.defaultTpl o = Except.error e →
        Render renv opts o = RenderResult.fatal e)
    ∧ (∀ e s, opts.TemplateFile = "" → opts.Format = true →
        renv.parseTemplate renv.defaultTpl = Except.ok () →
        renv.execTemplate renv.defaultTpl o = Except.ok s →
        renv.formatSource s = Except.error e →
        Render renv opts o = RenderResult.err ("failed to format source: " ++ e))
    ∧ (∀ g, Parse env { opts with InputFile := a } src = ParseResult.err g →
        run env renv wenv opts (a :: args) src
          = (RunResult.errExit (RunError.gen g), Option.none))
    ∧ (∀ m, Parse env { opts with InputFile := a } src = ParseResult.fatal m →
        run env renv wenv opts (a :: args) src = (RunResult.fatalStop m, Option.none))
    ∧ (∀ o' m, Parse env { opts with InputFile := a } src = ParseResult.ok o' →
        Render renv { opts with InputFile := a } o' = RenderResult.err m →
        run env renv wenv opts (a :: args) src
          = (RunResult.errExit (RunError.render m), Option.none)) := by
  refine ⟨fun e => rfl, ?_, ?_, ?_, ?_, ?_, ?_, ?_⟩
  · intro e hne hr
    simp [Render, hne, hr]
  · intro e he hp
    simp [Render, he, hp]
  · intro e he hp hx
    simp [Render, he, hp, hx]
  · intro e s he hf hp hx hfmt
    simp [Render, he, hf, hp, hx, hfmt]
  · intro g hp
    simp [run, hp]
  · intro m hp
    simp [run, hp]
  · intro o' m hp hr
    simp [run, hp, hr]

def renvW3 : RenderEnv :=
  ⟨"tpl", fun _ => Except.error "boom", fun _ => Except.ok (),
   fun _ _ => Except.ok "code", fun s => Except.ok s⟩

def wenvW3 : RunEnv := ⟨fun _ _ => Except.ok ()⟩

def optsW3t : Opts := ⟨"q.go", "custom.tpl", "out/mock.go", "", true⟩

def outW3 : Output := ⟨"out", "m", "db", "Mocker", [], []⟩

/-- Witness for C3 (amended): a concrete unreadable override template is
returned as a `failed to open template file` error. -/
theorem c3_witness :
    Render renvW3 optsW3t outW3 = RenderResult.err "failed to open template file: boom" := by
  have h :=
    (c3_amended envW3 renvW3 wenvW3 optsW3t outW3 (Except.error "x") "a" []).2.1
      "boom" (by decide) rfl
  simpa using h

/-! Helper lemmas about the module-root search. -/

theorem findModuleRootLoop_prefix (fs : List String → Bool) :
    ∀ (fuel : Nat) (dir r : List String),
      findModuleRootLoop fs fuel dir = Option.some r → r <+: dir := by
  intro fuel
  induction fuel with
  | zero =>
    intro dir r h
    unfold findModuleRootLoop at h
    split at h
    · cases h; exact List.prefix_refl _
    · cases h
  | succ n ih =>
    intro dir r h
    unfold findModuleRootLoop at h
    split at h
    · cases h; exact List.prefix_refl _
    · cases dir with
      | nil => cases h
      | cons x xs =>
        have hp := ih (x :: xs).dropLast r h
        have hd : (x :: xs).dropLast <+: (x :: xs) := by
          rw [List.dropLast_eq_take]
          exact List.take_prefix _ _
        exact hp.trans hd

theorem findModuleRootLoop_none (fs : List String → Bool) :
    ∀ (fuel : Nat) (dir : List String),
      (∀ r, r <+: dir → fs r = false) →
      findModuleRootLoop fs fuel dir = Option.none := by
  intro fuel
  induction fuel with
  | zero =>
    intro dir h
    unfold findModuleRootLoop
    rw [h dir (List.prefix_refl dir)]
    simp
  | succ n ih =>
    intro dir h
    unfold findModuleRootLoop
    rw [h dir (List.prefix_refl dir)]
    simp only [Bool.false_eq_true, if_false]
    cases dir with
    | nil => rfl
    | cons x xs =>
      apply ih
      intro r hr
      refine h r (hr.trans ?_)
      rw [List.dropLast_eq_take]
      exact List.take_prefix _ _

theorem dirToString_go (segs : List String) :
    ∀ init : String,
      segs.foldl (fun acc s => acc ++ "/" ++ s) init = init ++ dirToString segs := by
  induction segs with
  | nil =>
    intro init
    show init = init ++ dirToString []
    rw [show dirToString [] = "" from rfl, String.append_empty]
  | cons d ds ih =>
    intro init
    show ds.foldl (fun acc s => acc ++ "/" ++ s) (init ++ "/" ++ d)
        = init ++ dirToString (d :: ds)
    rw [ih (init ++ "/" ++ d),
        show dirToString (d :: ds)
            = ds.foldl (fun acc s => acc ++ "/" ++ s) ("" ++ "/" ++ d) from rfl,
        ih ("" ++ "/" ++ d)]
    simp [String.append_assoc, String.empty_append]

theorem dirToString_cons (d : String) (ds : List String) :
    dirToString (d :: ds) = "/" ++ (d ++ dirToString ds) := by
  show ds.foldl (fun acc s => acc ++ "/" ++ s) ("" ++ "/" ++ d)
      = "/" ++ (d ++ dirToString ds)
  rw [dirToString_go ds ("" ++ "/" ++ d)]
  simp [String.append_assoc, String.empty_append]

theorem dirToString_append (a b : List String) :
    dirToString (a ++ b) = dirToString a ++ dirToString b := by
  show (a ++ b).foldl (fun acc s => acc ++ "/" ++ s) ""
      = dirToString a ++ dirToString b
  rw [List.foldl_append]
  exact dirToString_go b (a.foldl (fun acc s => acc ++ "/" ++ s) "")

theorem trimPrefixStr_append (a b : String) : trimPrefixStr (a ++ b) a = b := by
  have hc : (a.data.isPrefixOf (a ++ b).data) = true := by
    rw [String.data_append]
    exact List.isPrefixOf_iff_prefix.mpr ⟨b.data, rfl⟩
  unfold trimPrefixStr
  rw [if_pos hc, String.data_append, List.drop_left]

/-- C8: when a module root is found at a proper ancestor directory (a
nonempty segment list), the derived `ModelPath` is the declared module
path concatenated with the slash-separated portion of the input file's
directory beyond the root (first conjunct); when the module root is the
filesystem root `/`, `strings.TrimPrefix` strips the leading separator,
so the module path and the remainder are concatenated with NO separator
between them (second conjunct); when no ancestor directory contains
`go.mod`, the directory search returns the empty root rather than an
error (third conjunct); an unreadable or unparsable `go.mod` makes
`findOutputModule` return a fatal error value (last two conjuncts). -/
theorem c8_model_path (env : Env) (f : List String)
    (h : env.absInputFile = Except.ok f) :
    (∀ r rs content mp,
        findModuleRoot env.hasGoMod f.dropLast = Option.some (r :: rs) →
        env.readFile (goModPath (Option.some (r :: rs))) = Except.ok content →
        env.parseModFile content = Except.ok mp →
        ∃ rest, f.dropLast = (r :: rs) ++ rest
          ∧ findOutputModule env = Except.ok (mp ++ dirToString rest))
    ∧ (∀ d ds content mp,
        f.dropLast = d :: ds →
        findModuleRoot env.hasGoMod f.dropLast = Option.some [] →
        env.readFile (goModPath (Option.some [])) = Except.ok content →
        env.parseModFile content = Except.ok mp →
        findOutputModule env = Except.ok (mp ++ (d ++ dirToString ds)))
    ∧ ((∀ r, r <+: f.dropLast → env.hasGoMod r = false) →
        findModuleRoot env.hasGoMod f.dropLast = Option.none)
    ∧ (∀ e,
        env.readFile (goModPath (findModuleRoot env.hasGoMod f.dropLast))
          = Except.error e →
        findOutputModule env = Except.error (GenError.modRead e))
    ∧ (∀ content e,
        env.readFile (goModPath (findModuleRoot env.hasGoMod f.dropLast))
          = Except.ok content →
        env.parseModFile content = Except.error e →
        findOutputModule env = Except.error (GenError.modParse e)) := by
  refine ⟨?_, ?_, ?_, ?_, ?_⟩
  · intro r rs content mp hroot hread hparse
    obtain ⟨rest, hrest⟩ := findModuleRootLoop_prefix env.hasGoMod _ _ (r :: rs) hroot
    refine ⟨rest, hrest.symm, ?_⟩
    have htrim : trimPrefixStr (dirToString f.dropLast)
        (rootToString (Option.some (r :: rs))) = dirToString rest := by
      rw [show rootToString (Option.some (r :: rs)) = dirToString (r :: rs) from rfl,
          ← hrest, dirToString_append]
      exact trimPrefixStr_append _ _
    simp [findOutputModule, h, hroot, hread, hparse, htrim]
  · intro d ds content mp hdir hroot hread hparse
    have htrim : trimPrefixStr (dirToString f.dropLast)
        (rootToString (Option.some ([] : List String))) = d ++ dirToString ds := by
      rw [hdir, dirToString_cons]
      exact trimPrefixStr_append "/" (d ++ dirToString ds)
    simp [findOutputModule, h, hroot, hread, hparse, htrim]
  · intro hno
    exact findModuleRootLoop_none env.hasGoMod _ _ hno
  · intro e hre
    simp [findOutputModule, h, hre]
  · intro content e hread hparse
    simp [findOutputModule, h, hread, hparse]

def envW8 : Env :=
  ⟨fun s => Except.ok s, fun d => d == ["home"],
   fun p => if p == "/home/go.mod" then Except.ok "module m" else Except.error "missing",
   fun c => if c == "module m" then Except.ok "m" else Except.error "bad",
   Except.ok ["home", "proj", "querier.go"], Except.ok ["out", "mock.go"]⟩

/-- Witness for C8: input `/home/proj/querier.go`, module root `/home`
declaring path `m`, derived `ModelPath = "m/proj"`. -/
theorem c8_witness : findOutputModule envW8 = Except.ok "m/proj" := by
  obtain ⟨rest, hrest, hout⟩ :=
    (c8_model_path envW8 ["home", "proj", "querier.go"] rfl).1
      "home" [] "module m" "m" rfl rfl rfl
  have hr : rest = ["proj"] := by
    simpa using hrest.symm
  rw [hr] at hout
  exact hout

/-! Counting function-type nodes, for the method-per-FuncType invariant. -/

mutual

/-- Number of `*ast.FuncType` nodes in an expression subtree. -/
def countFuncs : Expr → Nat
  | .ident _ => 0
  | .selector _ _ => 0
  | .array e => countFuncs e
  | .star e => countFuncs e
  | .chanType e => countFuncs e
  | .mapType k v => countFuncs k + countFuncs v
  | .funcType ps rs => 1 + countFuncsGroups ps + countFuncsOpt rs
  | .interfaceType gs => countFuncsGroups gs
  | .structType gs => countFuncsGroups gs

def countFuncsOpt : FieldListOpt → Nat
  | .none => 0
  | .some gs => countFuncsGroups gs

def countFuncsGroups : FieldGroups → Nat
  | .nil => 0
  | .cons _ t rest => countFuncs t + countFuncsGroups rest

end

mutual

theorem walkExpr_count (pkg : String) (e : Expr) :
    ∀ fn ms s', walkExpr pkg e (fn, ms) = Option.some s' →
      s'.2.length = ms.length + countFuncs e := by
  cases e with
  | ident n =>
    intro fn ms s' h
    cases h
    simp [countFuncs]
  | selector x sel =>
    intro fn ms s' h
    cases h
    simp [countFuncs]
  | array elt =>
    intro fn ms s' h
    have := walkExpr_count pkg elt fn ms s' h
    simpa [countFuncs] using this
  | star x =>
    intro fn ms s' h
    have := walkExpr_count pkg x fn ms s' h
    simpa [countFuncs] using this
  | chanType v =>
    intro fn ms s' h
    have := walkExpr_count pkg v fn ms s' h
    simpa [countFuncs] using this
  | mapType k v =>
    intro fn ms s' h
    replace h : (match walkExpr pkg k (fn, ms) with
        | Option.none => Option.none
        | Option.some s1 => walkExpr pkg v s1) = Option.some s' := h
    cases hk : walkExpr pkg k (fn, ms) with
    | none => rw [hk] at h; cases h
    | some s1 =>
      rw [hk] at h
      obtain ⟨fn1, ms1⟩ := s1
      have h1 := walkExpr_count pkg k fn ms (fn1, ms1) hk
      have h2 := walkExpr_count pkg v fn1 ms1 s' h
      simp only [countFuncs]
      simp at h1
      omega
  | funcType ps rs =>
    intro fn ms s' h
    replace h : (match fields rs pkg with
        | Option.none => Option.none
        | Option.some outs =>
          match walkGroups pkg ps (fn, ms ++ [⟨fn, fieldsLoop ps pkg, outs⟩]) with
          | Option.none => Option.none
          | Option.some s1 => walkFieldListOpt pkg rs s1) = Option.some s' := h
    cases hf : fields rs pkg with
    | none => rw [hf] at h; cases h
    | some outs =>
      simp only [hf] at h
      cases hw : walkGroups pkg ps (fn, ms ++ [⟨fn, fieldsLoop ps pkg, outs⟩]) with
      | none => simp only [hw] at h; cases h
      | some s1 =>
        simp only [hw] at h
        obtain ⟨fn1, ms1⟩ := s1
        have h1 := walkGroups_count pkg ps fn (ms ++ [⟨fn, fieldsLoop ps pkg, outs⟩]) (fn1, ms1) hw
        have h2 := walkFieldListOpt_count pkg rs (fn1, ms1) s' h
        simp only [countFuncs]
        simp [List.length_append] at h1 h2
        omega
  | interfaceType gs =>
    intro fn ms s' h
    have := walkGroups_count pkg gs fn ms s' h
    simpa [countFuncs] using this
  | structType gs =>
    intro fn ms s' h
    have := walkGroups_count pkg gs fn ms s' h
    simpa [countFuncs] using this

theorem walkFieldListOpt_count (pkg : String) (o : FieldListOpt) :
    ∀ s s', walkFieldListOpt pkg o s = Option.some s' →
      s'.2.length = s.2.length + countFuncsOpt o := by
  cases o with
  | none =>
    intro s s' h
    cases h
    simp [countFuncsOpt]
  | some gs =>
    intro s s' h
    obtain ⟨fn, ms⟩ := s
    have := walkGroups_count pkg gs fn ms s' h
    simpa [countFuncsOpt] using this

theorem walkGroups_count (pkg : String) (gs : FieldGroups) :
    ∀ fn ms s', walkGroups pkg gs (fn, ms) = Option.some s' →
      s'.2.length = ms.length + countFuncsGroups gs := by
  cases gs with
  | nil =>
    intro fn ms s' h
    cases h
    simp [countFuncsGroups]
  | cons ns t rest =>
    intro fn ms s' h
    replace h : (match walkExpr pkg t (ns.getLastD fn, ms) with
        | Option.none => Option.none
        | Option.some s1 => walkGroups pkg rest s1) = Option.some s' := h
    cases ht : walkExpr pkg t (ns.getLastD fn, ms) with
    | none => rw [ht] at h; cases h
    | some s1 =>
      rw [ht] at h
      obtain ⟨fn1, ms1⟩ := s1
      have h1 := walkExpr_count pkg t (ns.getLastD fn) ms (fn1, ms1) ht
      have h2 := walkGroups_count pkg rest fn1 ms1 s' h
      simp only [countFuncsGroups]
      simp at h1
      omega

end

/-- Names of the methods declared directly by an interface's field list:
one per group that pairs names with a function type. -/
def declaredNames : FieldGroups → List String
  | .nil => []
  | .cons ns t rest =>
    (match ns, t with
     | n :: _, .funcType _ _ => [n]
     | _, _ => []) ++ declaredNames rest

/-- A `Querier` declaring ONE method `Foo(f func() int) error`, whose
parameter type contains a nested function type. -/
def groupsW9 : FieldGroups :=
  .cons ["Foo"]
    (.funcType (.cons ["f"] (.funcType .nil (.some (.cons [] (.ident "int") .nil))) .nil)
      (.some (.cons [] (.ident "error") .nil)))
    .nil

def tsW9 : TypeSpec := ⟨"Querier", .interfaceType groupsW9⟩

def mW9a : Method := ⟨"Foo", [⟨"f", "<error_unhandled_*ast.FuncType>"⟩], [⟨"", "error"⟩]⟩

def mW9b : Method := ⟨"f", [], [⟨"", "int"⟩]⟩

/-- C9: whenever the traversal completes, the number of Method records is
exactly the number of function-type nodes anywhere inside the `Querier`
type declaration (first conjunct); consequently an interface declaring a
single method with a function-typed parameter yields TWO Method records —
more than its one declared method (remaining conjuncts). -/
theorem c9_method_per_funcType :
    (∀ (ts : TypeSpec) (pkg : String) (ms : List Method),
        walkTypeSpec ts pkg = Option.some ms → ms.length = countFuncs ts.tp)
    ∧ walkTypeSpec tsW9 "db" = Option.some [mW9a, mW9b]
    ∧ countFuncs tsW9.tp = 2
    ∧ declaredNames groupsW9 = ["Foo"] := by
  refine ⟨?_, rfl, rfl, rfl⟩
  intro ts pkg ms h
  unfold walkTypeSpec at h
  cases hw : walkExpr pkg ts.tp (ts.name, []) with
  | none => rw [hw] at h; cases h
  | some s1 =>
    rw [hw] at h
    obtain ⟨fn1, ms1⟩ := s1
    replace h : Option.some ms1 = Option.some ms := h
    have hms : ms1 = ms := Option.some.inj h
    have hc := walkExpr_count pkg ts.tp ts.name [] (fn1, ms1) hw
    rw [hms] at hc
    simpa using hc

/-- Witness for C9: the general count law applied at the concrete
interface with a function-typed parameter. -/
theorem c9_witness : ([mW9a, mW9b] : List Method).length = countFuncs tsW9.tp :=
  c9_method_per_funcType.1 tsW9 "db" [mW9a, mW9b] rfl

/-! Interfaces whose method signatures contain no nested function types. -/

mutual

/-- No `*ast.FuncType` node occurs anywhere inside the expression. -/
def noFunc : Expr → Bool
  | .ident _ => true
  | .selector _ _ => true
  | .array e => noFunc e
  | .star e => noFunc e
  | .chanType e => noFunc e
  | .mapType k v => noFunc k && noFunc v
  | .funcType _ _ => false
  | .interfaceType gs => noFuncGroups gs
  | .structType gs => noFuncGroups gs

def noFuncGroups : FieldGroups → Bool
  | .nil => true
  | .cons _ t rest => noFunc t && noFuncGroups rest

end

/-- A well-behaved interface entry: an embedded name (no names, no nested
function type) or a named method whose signature has an explicit result
list and no function type nested inside its parameter or result types. -/
def simpleGroup : List String → Expr → Bool
  | [], t => noFunc t
  | [_], .funcType ps (.some rs) => noFuncGroups ps && noFuncGroups rs
  | _, _ => false

def simpleMethods : FieldGroups → Bool
  | .nil => true
  | .cons ns t rest => simpleGroup ns t && simpleMethods rest

mutual

theorem walkExpr_noFunc (pkg : String) (e : Expr) :
    ∀ fn ms, noFunc e = true →
      ∃ fn', walkExpr pkg e (fn, ms) = Option.some (fn', ms) := by
  cases e with
  | ident n => intro fn ms _; exact ⟨n, rfl⟩
  | selector x sel => intro fn ms _; exact ⟨sel, rfl⟩
  | array elt =>
    intro fn ms h
    exact walkExpr_noFunc pkg elt fn ms (by simpa [noFunc] using h)
  | star x =>
    intro fn ms h
    exact walkExpr_noFunc pkg x fn ms (by simpa [noFunc] using h)
  | chanType v =>
    intro fn ms h
    exact walkExpr_noFunc pkg v fn ms (by simpa [noFunc] using h)
  | mapType k v =>
    intro fn ms h
    rw [noFunc, Bool.and_eq_true] at h
    obtain ⟨fn1, h1⟩ := walkExpr_noFunc pkg k fn ms h.1
    obtain ⟨fn2, h2⟩ := walkExpr_noFunc pkg v fn1 ms h.2
    refine ⟨fn2, ?_⟩
    show (match walkExpr pkg k (fn, ms) with
        | Option.none => Option.none
        | Option.some s1 => walkExpr pkg v s1) = Option.some (fn2, ms)
    rw [h1]
    exact h2
  | funcType ps rs =>
    intro fn ms h
    simp [noFunc] at h
  | interfaceType gs =>
    intro fn ms h
    exact walkGroups_noFunc pkg gs fn ms (by simpa [noFunc] using h)
  | structType gs =>
    intro fn ms h
    exact walkGroups_noFunc pkg gs fn ms (by simpa [noFunc] using h)

theorem walkGroups_noFunc (pkg : String) (gs : FieldGroups) :
    ∀ fn ms, noFuncGroups gs = true →
      ∃ fn', walkGroups pkg gs (fn, ms) = Option.some (fn', ms) := by
  cases gs with
  | nil => intro fn ms _; exact ⟨fn, rfl⟩
  | cons ns t rest =>
    intro fn ms h
    rw [noFuncGroups, Bool.and_eq_true] at h
    obtain ⟨fn1, h1⟩ := walkExpr_noFunc pkg t (ns.getLastD fn) ms h.1
    obtain ⟨fn2, h2⟩ := walkGroups_noFunc pkg rest fn1 ms h.2
    refine ⟨fn2, ?_⟩
    show (match walkExpr pkg t (ns.getLastD fn, ms) with
        | Option.none => Option.none
        | Option.some s1 => walkGroups pkg rest s1) = Option.some (fn2, ms)
    rw [h1]
    exact h2

end

theorem walkGroups_simple (pkg : String) (gs : FieldGroups) :
    ∀ fn ms, simpleMethods gs = true →
      ∃ fn' tail, walkGroups pkg gs (fn, ms) = Option.some (fn', ms ++ tail)
        ∧ tail.map Method.Name = declaredNames gs := by
  cases gs with
  | nil =>
    intro fn ms _
    exact ⟨fn, [], by simp [walkGroups], by simp [declaredNames]⟩
  | cons ns t rest =>
    have ih := walkGroups_simple pkg rest
    intro fn ms h
    rw [simpleMethods, Bool.and_eq_true] at h
    obtain ⟨hg, hrest⟩ := h
    cases ns with
    | nil =>
      obtain ⟨fn1, h1⟩ := walkExpr_noFunc pkg t fn ms (by simpa [simpleGroup] using hg)
      obtain ⟨fn2, tail, h2, hn⟩ := ih fn1 ms hrest
      refine ⟨fn2, tail, ?_, ?_⟩
      · show (match walkExpr pkg t (List.getLastD [] fn, ms) with
            | Option.none => Option.none
            | Option.some s1 => walkGroups pkg rest s1) = Option.some (fn2, ms ++ tail)
        rw [show List.getLastD [] fn = fn from rfl, h1]
        exact h2
      · show tail.map Method.Name
          = (match ([] : List String), t with
             | n :: _, .funcType _ _ => [n]
             | _, _ => []) ++ declaredNames rest
        simpa using hn
    | cons n ns' =>
      cases ns' with
      | cons n2 ns'' => simp [simpleGroup] at hg
      | nil =>
        cases t with
        | ident a => simp [simpleGroup] at hg
        | selector a b => simp [simpleGroup] at hg
        | array a => simp [simpleGroup] at hg
        | star a => simp [simpleGroup] at hg
        | chanType a => simp [simpleGroup] at hg
        | mapType a b => simp [simpleGroup] at hg
        | interfaceType a => simp [simpleGroup] at hg
        | structType a => simp [simpleGroup] at hg
        | funcType ps ro =>
          cases ro with
          | none => simp [simpleGroup] at hg
          | some rs =>
            rw [simpleGroup, Bool.and_eq_true] at hg
            obtain ⟨hps, hrs⟩ := hg
            obtain ⟨fn1, h1⟩ :=
              walkGroups_noFunc pkg ps n (ms ++ [⟨n, fieldsLoop ps pkg, fieldsLoop rs pkg⟩]) hps
            obtain ⟨fn2, h2⟩ :=
              walkGroups_noFunc pkg rs fn1 (ms ++ [⟨n, fieldsLoop ps pkg, fieldsLoop rs pkg⟩]) hrs
            obtain ⟨fn3, tail, h3, hn⟩ :=
              ih fn2 (ms ++ [⟨n, fieldsLoop ps pkg, fieldsLoop rs pkg⟩]) hrest
            refine ⟨fn3, ⟨n, fieldsLoop ps pkg, fieldsLoop rs pkg⟩ :: tail, ?_, ?_⟩
            · show (match walkExpr pkg (.funcType ps (.some rs)) (List.getLastD [n] fn, ms) with
                  | Option.none => Option.none
                  | Option.some s1 => walkGroups pkg rest s1)
                = Option.some (fn3, ms ++ ⟨n, fieldsLoop ps pkg, fieldsLoop rs pkg⟩ :: tail)
              have hfe : walkExpr pkg (.funcType ps (.some rs)) (List.getLastD [n] fn, ms)
                  = Option.some (fn2, ms ++ [⟨n, fieldsLoop ps pkg, fieldsLoop rs pkg⟩]) := by
                show (match walkGroups pkg ps
                      (n, ms ++ [⟨n, fieldsLoop ps pkg, fieldsLoop rs pkg⟩]) with
                    | Option.none => Option.none
                    | Option.some s1 => walkFieldListOpt pkg (FieldListOpt.some rs) s1)
                  = Option.some (fn2, ms ++ [⟨n, fieldsLoop ps pkg, fieldsLoop rs pkg⟩])
                rw [h1]
                exact h2
              rw [hfe]
              show walkGroups pkg rest (fn2, ms ++ [⟨n, fieldsLoop ps pkg, fieldsLoop rs pkg⟩])
                  = Option.some (fn3, ms ++ ⟨n, fieldsLoop ps pkg, fieldsLoop rs pkg⟩ :: tail)
              rw [h3]
              simp
            · show (⟨n, fieldsLoop ps pkg, fieldsLoop rs pkg⟩ :: tail).map Method.Name
                = (match (n :: [] : List String), Expr.funcType ps (.some rs) with
                   | n :: _, .funcType _ _ => [n]
                   | _, _ => []) ++ declaredNames rest
              simpa using hn

/-- A one-method interface `Foo(cb func() bool) error` whose parameter is
itself of function type. -/
def groupsX7 : FieldGroups :=
  .cons ["Foo"]
    (.funcType (.cons ["cb"] (.funcType .nil (.some (.cons [] (.ident "bool") .nil))) .nil)
      (.some (.cons [] (.ident "error") .nil)))
    .nil

/-- C7 counterexample: the interface `groupsX7` declares exactly one
method, yet the extractor produces TWO Method records (one per
function-type node met in traversal), so the extractor does not produce
exactly N records in general. -/
theorem c7_counterexample :
    walkTypeSpec ⟨"Querier", .interfaceType groupsX7⟩ "db"
      = Option.some
        [⟨"Foo", [⟨"cb", "<error_unhandled_*ast.FuncType>"⟩], [⟨"", "error"⟩]⟩,
         ⟨"cb", [], [⟨"", "bool"⟩]⟩]
    ∧ declaredNames groupsX7 = ["Foo"]
    ∧ ([⟨"Foo", [⟨"cb", "<error_unhandled_*ast.FuncType>"⟩], [⟨"", "error"⟩]⟩,
        ⟨"cb", [], [⟨"", "bool"⟩]⟩] : List Method).length = 2 :=
  ⟨rfl, rfl, rfl⟩

/-- C7 (amended): for every interface whose entries are embedded names or
ordinary methods — one declared name, an explicit result list, and no
function type nested inside parameter or result types — the extractor
produces exactly one Method record per declared method, in declaration
order, each named by the method's declared name. -/
theorem c7_n_methods_in_order (gs : FieldGroups) (pkg : String)
    (h : simpleMethods gs = true) :
    ∃ ms, walkTypeSpec ⟨"Querier", .interfaceType gs⟩ pkg = Option.some ms
      ∧ ms.map Method.Name = declaredNames gs
      ∧ ms.length = (declaredNames gs).length := by
  obtain ⟨fn', tail, hw, hn⟩ := walkGroups_simple pkg gs "Querier" [] h
  refine ⟨tail, ?_, hn, ?_⟩
  · show (match walkGroups pkg gs ("Querier", []) with
        | Option.none => Option.none
        | Option.some (_, ms) => Option.some ms) = Option.some tail
    rw [hw]
    simp
  · rw [← hn]
    simp

/-- A two-method interface in the supported fragment:
`GetUser(ctx context.Context, id int) (*User, error)` and
`Close() error`. -/
def groupsW7 : FieldGroups :=
  .cons ["GetUser"]
    (.funcType
      (.cons ["ctx"] (.selector "context" "Context") (.cons ["id"] (.ident "int") .nil))
      (.some (.cons [] (.star (.ident "User")) (.cons [] (.ident "error") .nil))))
    (.cons ["Close"] (.funcType .nil (.some (.cons [] (.ident "error") .nil))) .nil)

/-- Witness for C7 (amended): the two-method interface yields exactly its
two declared names, in order. -/
theorem c7_witness :
    (walkTypeSpec ⟨"Querier", .interfaceType groupsW7⟩ "db").map (List.map Method.Name)
      = Option.some (declaredNames groupsW7) := by
  obtain ⟨ms, hw, hn, _⟩ := c7_n_methods_in_order groupsW7 "db" (by rfl)
  rw [hw]
  simp [hn]

end sqlcmock
